import Mathlib

/-
Verification of the mesh-to-volume conversion core of
openvdb/tools/MeshToVolume.h (openvdb 1.0.0).

The C++ code is shallowly embedded: sparse grids become functions from
integer coordinates to a value together with a per-voxel active flag,
floating-point scalars become exact rationals, and the external geometry
kit (point-to-triangle squared distance and the square root) is taken as
an abstract parameter, exactly as the specification treats it as an
external collaborator.
-/

namespace MeshToVolume

/-- A voxel coordinate, the Coord triple (i, j, k) of the grid library. -/
abbrev Coord : Type := ℤ × ℤ × ℤ

/-- A point in index space, Vec3d / Vec3s of the source. -/
abbrev Vec3 : Type := ℚ × ℚ × ℚ

/-- A polygon: four point indices, Vec4I of the source.  The fourth index
equals INVALID_IDX exactly when the polygon is a triangle. -/
structure Vec4I where
  v0 : ℕ
  v1 : ℕ
  v2 : ℕ
  v3 : ℕ

/-- util::INVALID_IDX, the maximum 32-bit unsigned value. -/
def INVALID_IDX : ℕ := 4294967295

/-- std::numeric_limits of float, max(): the background value of the
squared-distance tree. -/
def floatMax : ℚ := 340282346638528859811704183484516925440

/-- std::numeric_limits of double, max(): the initial accumulator of the
neighbor scan of ExpandNB::getDist. -/
def doubleMax : ℚ := 17976931348623157 * 10 ^ 292

/-- The literal 0.86602540378443861 of the source (about half the space
diagonal of a voxel); used as flood-fill pruning radius in
MeshVoxelizer::evalVoxel and negated in ShellVoxelCleaner. -/
def pruneConst : ℚ := 86602540378443861 / 100000000000000000

/-- Modelled from the spec: the neighbor-offset table util::COORD_OFFSETS
lives in openvdb/util/Util.h, which is not among the sources.  The spec
(section 6) fixes its contract: entries 0..5 are the six face neighbors
with entry 3 being +j and entry 5 being +k, entries 0..17 are the
eighteen face-and-edge neighbors, and entries 0..25 the full
twenty-six-neighborhood. -/
def COORD_OFFSETS : List Coord :=
  [(-1, 0, 0), (0, -1, 0), (0, 0, -1), (0, 1, 0), (1, 0, 0), (0, 0, 1),
   (1, 1, 0), (1, -1, 0), (-1, 1, 0), (-1, -1, 0),
   (1, 0, 1), (1, 0, -1), (-1, 0, 1), (-1, 0, -1),
   (0, 1, 1), (0, 1, -1), (0, -1, 1), (0, -1, -1),
   (1, 1, 1), (1, 1, -1), (1, -1, 1), (1, -1, -1),
   (-1, 1, 1), (-1, 1, -1), (-1, -1, 1), (-1, -1, -1)]

/-- The first eighteen entries of the offset table: the 18-neighborhood
used by ShellVoxelCleaner and ExpandNB::getDist. -/
def offsets18 : List Coord := COORD_OFFSETS.take 18

/-- The voxel center of a coordinate: integer coordinates as doubles. -/
def voxelCenter (ijk : Coord) : Vec3 := ((ijk.1 : ℚ), (ijk.2.1 : ℚ), (ijk.2.2 : ℚ))

/-- The squared distance from a point x to the primitive polyIdx: the
distance to the triangle (v0, v1, v2) and, when the primitive is a quad,
the second triangle (v0, v3, v2) is tried and the smaller value kept.
This is the computation shared by MeshVoxelizer::evalVoxel and
ExpandNB::getDistToPrim; math::triToPtnDistSqr is the external geometry
kit and stays an abstract parameter. -/
def primDistSqr (pts : ℕ → Vec3) (polys : ℕ → Vec4I)
    (triToPtnDistSqr : Vec3 → Vec3 → Vec3 → Vec3 → ℚ)
    (x : Vec3) (polyIdx : ℕ) : ℚ :=
  let verts := polys polyIdx
  let p0 := pts verts.v0
  let p2 := pts verts.v2
  let dist := triToPtnDistSqr p0 (pts verts.v1) p2 x
  if verts.v3 ≠ INVALID_IDX then
    let secondDist := triToPtnDistSqr p0 (pts verts.v3) p2 x
    if secondDist < dist then secondDist else dist
  else dist

/-- One partial result of the parallel MeshVoxelizer: the squared-distance
tree (value and active flag per voxel), the closest-primitive index tree
and the intersecting-voxels (shell) mask. -/
structure VoxState where
  dsq : Coord → ℚ
  act : Coord → Bool
  idx : Coord → ℤ
  mask : Coord → Bool

/-- MeshVoxelizer::evalVoxel: computes the squared distance from the voxel
center to the primitive, writes (-distance, primitive index) when the new
squared distance beats the magnitude of the stored value, and reports
whether the voxel is within the flood-fill pruning radius. -/
def evalVoxel (pts : ℕ → Vec3) (polys : ℕ → Vec4I)
    (triToPtnDistSqr : Vec3 → Vec3 → Vec3 → Vec3 → ℚ)
    (s : VoxState) (ijk : Coord) (polyIdx : ℕ) : VoxState × Bool :=
  let dist := primDistSqr pts polys triToPtnDistSqr (voxelCenter ijk) polyIdx
  let s2 :=
    if dist < |s.dsq ijk| then
      { s with dsq := Function.update s.dsq ijk (-dist),
               act := Function.update s.act ijk true,
               idx := Function.update s.idx ijk (polyIdx : ℤ) }
    else s
  (s2, decide (dist < pruneConst))

/-- MeshVoxelizer::join (same merge rule as internal::combine): every
active voxel of the right partial result overwrites the left one exactly
when the negated right value is smaller than the magnitude of the left
value; the shell masks are merged by union. -/
def joinVox (L R : VoxState) : VoxState where
  dsq := fun c => if R.act c = true ∧ -(R.dsq c) < |L.dsq c| then R.dsq c else L.dsq c
  act := fun c => if R.act c = true ∧ -(R.dsq c) < |L.dsq c| then true else L.act c
  idx := fun c => if R.act c = true ∧ -(R.dsq c) < |L.dsq c| then R.idx c else L.idx c
  mask := fun c => L.mask c || R.mask c

/-- The shape of a voxelizer partial result: inactive voxels hold the
background, active voxels hold a negated squared distance that the
background strictly dominates (evalVoxel only writes values -d with
0 <= d < |previous|). -/
def WfVox (s : VoxState) : Prop :=
  ∀ c, (s.act c = false → s.dsq c = floatMax) ∧
       (s.act c = true → -floatMax < s.dsq c ∧ s.dsq c ≤ 0)

/-- Definition following the words of claim C2: the squared distance from
the voxel center to the triangle (v0, v1, v2), also to (v0, v3, v2) when
the primitive is a quad, taking the minimum. -/
def evalVoxelDistClaim (pts : ℕ → Vec3) (polys : ℕ → Vec4I)
    (triToPtnDistSqr : Vec3 → Vec3 → Vec3 → Vec3 → ℚ)
    (ijk : Coord) (polyIdx : ℕ) : ℚ :=
  let verts := polys polyIdx
  let x := voxelCenter ijk
  let d1 := triToPtnDistSqr (pts verts.v0) (pts verts.v1) (pts verts.v2) x
  if verts.v3 ≠ INVALID_IDX then
    min d1 (triToPtnDistSqr (pts verts.v0) (pts verts.v3) (pts verts.v2) x)
  else d1

/-- MeshVoxelizer::shortEdge: the running maximum over the componentwise
extents of the v0-to-v1 and v0-to-v2 differences, compared against 200. -/
def shortEdge (p0 p1 p2 : Vec3) : Bool :=
  let em1 := |p1.1 - p0.1|
  let em2 := max em1 |p1.2.1 - p0.2.1|
  let em3 := max em2 |p1.2.2 - p0.2.2|
  let em4 := max em3 |p0.1 - p2.1|
  let em5 := max em4 |p0.2.1 - p2.2.1|
  let em6 := max em5 |p0.2.2 - p2.2.2|
  decide (em6 < 200)

/-- Definition following the words of claim C4: all three axis-wise edge
extents of the (v0, v1, v2) triangle - its three edges v0-v1, v1-v2 and
v2-v0 - and of the v0-to-v2 edge are strictly below 200 index units. -/
def shortEdgeClaim (p0 p1 p2 : Vec3) : Bool :=
  decide (|p1.1 - p0.1| < 200 ∧ |p1.2.1 - p0.2.1| < 200 ∧ |p1.2.2 - p0.2.2| < 200 ∧
          |p2.1 - p1.1| < 200 ∧ |p2.2.1 - p1.2.1| < 200 ∧ |p2.2.2 - p1.2.2| < 200 ∧
          |p0.1 - p2.1| < 200 ∧ |p0.2.1 - p2.2.1| < 200 ∧ |p0.2.2 - p2.2.2| < 200)

/-- The sign-sweep count stored by the MeshToVolume constructor:
mSignSweeps = std::min(mSignSweeps, 1). -/
def effectiveSignSweeps (signSweeps : ℤ) : ℤ := min signSweeps 1

/-- The number of (contour trace, sign propagation) alternations the
driver loop of doConvert executes: the stored count, zero when negative. -/
def performedSignSweeps (signSweeps : ℤ) : ℕ := (effectiveSignSweeps signSweeps).toNat

/-- The distance tree: a rational value and an active flag per voxel. -/
structure DGrid where
  val : Coord → ℚ
  act : Coord → Bool

/-- The closest-primitive index tree. -/
structure IGrid where
  val : Coord → ℤ
  act : Coord → Bool

/-- ShellVoxelCleaner::operator() at one voxel of the distance tree: only
active voxels with value at most zero that are not shell voxels are
touched; with no shell voxel among the eighteen neighbors the voxel is
deactivated in both the distance and the index tree (written back to the
backgrounds), otherwise values above -0.86602540378443861 are pulled down
to that constant. -/
def shellVoxelClean (D : DGrid) (I : IGrid) (mask : Coord → Bool)
    (distBG : ℚ) (indexBG : ℤ) (c : Coord) : DGrid × IGrid :=
  if D.act c = true then
    let value := D.val c
    if 0 < value then (D, I)
    else if mask c = true then (D, I)
    else if offsets18.all (fun o => !(mask (c + o))) then
      (⟨Function.update D.val c distBG, Function.update D.act c false⟩,
       ⟨Function.update I.val c indexBG, Function.update I.act c false⟩)
    else if -pruneConst < value then
      (⟨Function.update D.val c (-pruneConst), D.act⟩, I)
    else (D, I)
  else (D, I)

/-- Sign flip of ContourTracer: val = -val at one voxel. -/
def flipVal (D : DGrid) (c : Coord) : DGrid :=
  ⟨Function.update D.val c (-(D.val c)), D.act⟩

/-- The conditional sign flip of the ContourTracer backtrace: only
negative values are flipped. -/
def flipNeg (D : DGrid) (c : Coord) : DGrid :=
  if D.val c < 0 then flipVal D c else D

/-- The backtrace loop of ContourTracer::sparseScan: starting at column k
and walking down, flip the sign of every negative voxel value until a
boundary voxel of the intersection mask is hit; the fuel argument is the
number of columns between the start and last_k. -/
def backtrace (mask : Coord → Bool) (i j : ℤ) : ℕ → ℤ → DGrid → DGrid
  | 0, _, D => D
  | fuel + 1, k, D =>
      if mask (i, j, k) = true then D
      else backtrace mask i j fuel (k - 1) (flipNeg D (i, j, k))

/-- The per-row scan state of ContourTracer::sparseScan. -/
structure ScanState where
  lastVoxelWasOut : Bool
  last_k : ℤ

/-- One step of the k-loop of ContourTracer::sparseScan at voxel
(i, j, k): boundary voxels reset the state, a voxel following an outside
voxel is flipped, and otherwise the +j and +k neighbors (entries 3 and 5
of the offset table) are probed for an active outside voxel; on success
the voxel is declared outside, flipped, and the backtrace walks from
k - 1 down to last_k. -/
def scanStep (D : DGrid) (mask : Coord → Bool) (i j k : ℤ) (st : ScanState) :
    DGrid × ScanState :=
  let ijk : Coord := (i, j, k)
  if D.act ijk = true then
    if mask ijk = true then (D, ⟨false, k⟩)
    else if st.lastVoxelWasOut = true then (flipVal D ijk, st)
    else
      let n3 := ijk + COORD_OFFSETS.getD 3 (0, 0, 0)
      let n5 := ijk + COORD_OFFSETS.getD 5 (0, 0, 0)
      if (D.act n3 = true ∧ 0 < D.val n3) ∨ (D.act n5 = true ∧ 0 < D.val n5) then
        (backtrace mask i j (k - st.last_k).toNat (k - 1) (flipVal D ijk), ⟨true, k⟩)
      else (D, ⟨false, min k st.last_k⟩)
  else (D, st)

/-- The neighbor scan of ExpandNB::getDist: over the given offsets, track
the smallest magnitude of an active distance value and the primitive
index recorded at the voxel attaining it. -/
def getDistLoop (D : DGrid) (I : IGrid) (p : Coord) :
    List Coord → ℚ → ℤ → ℚ × ℤ
  | [], dist, prim => (dist, prim)
  | o :: os, dist, prim =>
      let n := p + o
      if D.act n = true then
        let nDist := |D.val n|
        if nDist < dist then getDistLoop D I p os nDist (I.val n)
        else getDistLoop D I p os dist prim
      else getDistLoop D I p os dist prim

/-- ExpandNB::getDistToPrim: the exact squared index-space distance from
the voxel center to the primitive, square-rooted and scaled by the voxel
size.  The square root is the abstract sqrtFn parameter since it is
irrational on rationals. -/
def getDistToPrim (pts : ℕ → Vec3) (polys : ℕ → Vec4I)
    (triToPtnDistSqr : Vec3 → Vec3 → Vec3 → Vec3 → ℚ) (sqrtFn : ℚ → ℚ)
    (voxelSize : ℚ) (ijk : Coord) (polyIdx : ℤ) : ℚ :=
  sqrtFn (primDistSqr pts polys triToPtnDistSqr (voxelCenter ijk) polyIdx.toNat) * voxelSize

/-- ExpandNB::getDist: scan the eighteen neighbors for the smallest
distance magnitude, keep the primitive index of that neighbor, and recompute
the world-space distance from this voxel to that primitive. -/
def getDist (pts : ℕ → Vec3) (polys : ℕ → Vec4I)
    (triToPtnDistSqr : Vec3 → Vec3 → Vec3 → Vec3 → ℚ) (sqrtFn : ℚ → ℚ)
    (voxelSize : ℚ) (D : DGrid) (I : IGrid) (p : Coord) (primIn : ℤ) : ℚ × ℤ :=
  let scan := getDistLoop D I p offsets18 doubleMax primIn
  (getDistToPrim pts polys triToPtnDistSqr sqrtFn voxelSize p scan.2, scan.2)

/-- One mask voxel of ExpandNB::operator() (in the branch where the leaf
exists in both the distance and the index tree): voxels already active in
the distance tree only clear their mask bit; otherwise the distance is
computed through getDist and the voxel is activated outside with
+distance below the exterior band width, inside with -distance below the
interior band width, and otherwise cleared from the mask.  Returned are
the new distance tree, the new index tree, the mask bit of the voxel and
the updated closest-primitive accumulator. -/
def expandVoxel (pts : ℕ → Vec3) (polys : ℕ → Vec4I)
    (triToPtnDistSqr : Vec3 → Vec3 → Vec3 → Vec3 → ℚ) (sqrtFn : ℚ → ℚ)
    (voxelSize exBandWidth inBandWidth : ℚ) (D : DGrid) (I : IGrid)
    (p : Coord) (primIn : ℤ) : DGrid × IGrid × Bool × ℤ :=
  if D.act p = true then (D, I, false, primIn)
  else
    let scan := getDistLoop D I p offsets18 doubleMax primIn
    let distance := getDistToPrim pts polys triToPtnDistSqr sqrtFn voxelSize p scan.2
    if ¬(D.val p < 0) ∧ distance < exBandWidth then
      (⟨Function.update D.val p distance, Function.update D.act p true⟩,
       ⟨Function.update I.val p scan.2, Function.update I.act p true⟩, true, scan.2)
    else if D.val p < 0 ∧ distance < inBandWidth then
      (⟨Function.update D.val p (-distance), Function.update D.act p true⟩,
       ⟨Function.update I.val p scan.2, Function.update I.act p true⟩, true, scan.2)
    else (D, I, false, scan.2)

/-- internal::SqrtAndScaleOp on one leaf, pointwise: every active value v
becomes w * sqrt(|v|) where w is -voxelSize exactly when the grid is
signed and v is negative, else +voxelSize. -/
def sqrtAndScaleOp (voxelSize : ℚ) (unsignedDist : Bool) (sqrtFn : ℚ → ℚ)
    (g : DGrid) : DGrid where
  val := fun c =>
    if g.act c = true then
      (if unsignedDist = false ∧ g.val c < 0 then -voxelSize else voxelSize) *
        sqrtFn |g.val c|
    else g.val c
  act := g.act

/-- internal::TrimOp, pointwise over the active voxels: an inside voxel
whose value does not stay above -inBandWidth is written to -inBandWidth
and deactivated; an outside voxel whose value is not below inBandWidth is
written to +exBandWidth and deactivated; every other voxel is kept. -/
def trimOp (exBandWidth inBandWidth : ℚ) (g : DGrid) : DGrid where
  val := fun c =>
    if g.act c = true then
      if g.val c < 0 ∧ ¬(-inBandWidth < g.val c) then -inBandWidth
      else if ¬(g.val c < 0) ∧ ¬(g.val c < inBandWidth) then exBandWidth
      else g.val c
    else g.val c
  act := fun c =>
    if g.act c = true then
      if g.val c < 0 ∧ ¬(-inBandWidth < g.val c) then false
      else if ¬(g.val c < 0) ∧ ¬(g.val c < inBandWidth) then false
      else true
    else g.act c

/-- The guard of the narrow-band dilation block of doConvert:
minWidth = voxelSize * 2, entered iff a band width exceeds it. -/
def narrowBandGate (voxelSize inBandWidth exBandWidth : ℚ) : Bool :=
  decide (voxelSize * 2 < inBandWidth) || decide (voxelSize * 2 < exBandWidth)

/-- The narrow-band dilation block of doConvert as a whole: the expansion
stage (mask construction, leaf preallocation and the dilate-and-expand
loop, abstracted as the stage argument) runs exactly when the gate holds,
and otherwise the grid passes through unchanged. -/
def expansionPhase (voxelSize inBandWidth exBandWidth : ℚ)
    (stage : DGrid → DGrid) (g : DGrid) : DGrid :=
  if narrowBandGate voxelSize inBandWidth exBandWidth = true then stage g else g

/-- One parallel sweep of ExpandNB over a list of mask voxels, threading
the distance tree, the index tree and the closest-primitive accumulator
through expandVoxel. -/
def expandList (pts : ℕ → Vec3) (polys : ℕ → Vec4I)
    (triToPtnDistSqr : Vec3 → Vec3 → Vec3 → Vec3 → ℚ) (sqrtFn : ℚ → ℚ)
    (voxelSize exBandWidth inBandWidth : ℚ)
    (ps : List Coord) (st : DGrid × IGrid × ℤ) : DGrid × IGrid × ℤ :=
  ps.foldl
    (fun st p =>
      let r := expandVoxel pts polys triToPtnDistSqr sqrtFn voxelSize
        exBandWidth inBandWidth st.1 st.2.1 p st.2.2
      (r.1, r.2.1, r.2.2.2))
    st

/-- MeshToVolume::convertToUnsignedDistanceField followed by the unsigned
path of doConvert: the exterior band width is clamped to at least
1 + 1e-7 voxels and scaled to world space, the interior band width is
zero, the sign stages are skipped, the squared values are square-rooted
and scaled with +voxelSize always, the narrow band is dilated when its
gate holds (each dilation round visiting some list of mask voxels), and
the trim pass runs when a band width is below voxelSize * 3. -/
def convertToUnsignedDistanceField (voxelSize exBandWidthIn : ℚ)
    (pts : ℕ → Vec3) (polys : ℕ → Vec4I)
    (triToPtnDistSqr : Vec3 → Vec3 → Vec3 → Vec3 → ℚ) (sqrtFn : ℚ → ℚ)
    (steps : List (List Coord)) (D0 : DGrid) (I0 : IGrid) : DGrid :=
  let exBandWidth := voxelSize * max (1 + 1 / 10000000) exBandWidthIn
  let inBandWidth : ℚ := 0
  let D1 := sqrtAndScaleOp voxelSize true sqrtFn D0
  let st2 :=
    if narrowBandGate voxelSize inBandWidth exBandWidth = true then
      steps.foldl
        (fun st ps => expandList pts polys triToPtnDistSqr sqrtFn voxelSize
          exBandWidth inBandWidth ps st)
        (D1, I0, 0)
    else (D1, I0, 0)
  if inBandWidth < voxelSize * 3 ∨ exBandWidth < voxelSize * 3 then
    trimOp exBandWidth inBandWidth st2.1
  else st2.1

section Lemmas

/-- Unfolding of the value field of the trim pass. -/
lemma trimOp_val (exBandWidth inBandWidth : ℚ) (g : DGrid) (c : Coord) :
    (trimOp exBandWidth inBandWidth g).val c =
      if g.act c = true then
        if g.val c < 0 ∧ ¬(-inBandWidth < g.val c) then -inBandWidth
        else if ¬(g.val c < 0) ∧ ¬(g.val c < inBandWidth) then exBandWidth
        else g.val c
      else g.val c := rfl

/-- Unfolding of the active field of the trim pass. -/
lemma trimOp_act (exBandWidth inBandWidth : ℚ) (g : DGrid) (c : Coord) :
    (trimOp exBandWidth inBandWidth g).act c =
      if g.act c = true then
        if g.val c < 0 ∧ ¬(-inBandWidth < g.val c) then false
        else if ¬(g.val c < 0) ∧ ¬(g.val c < inBandWidth) then false
        else true
      else g.act c := rfl

/-- The voxelizer distance computation of the source equals the min-form
of the claim. -/
lemma primDistSqr_eq_claim (pts : ℕ → Vec3) (polys : ℕ → Vec4I)
    (triToPtnDistSqr : Vec3 → Vec3 → Vec3 → Vec3 → ℚ) (ijk : Coord) (polyIdx : ℕ) :
    primDistSqr pts polys triToPtnDistSqr (voxelCenter ijk) polyIdx =
      evalVoxelDistClaim pts polys triToPtnDistSqr ijk polyIdx := by
  unfold primDistSqr evalVoxelDistClaim
  by_cases hq : (polys polyIdx).v3 ≠ INVALID_IDX
  · simp only [if_pos hq]
    by_cases h : triToPtnDistSqr (pts (polys polyIdx).v0) (pts (polys polyIdx).v3)
        (pts (polys polyIdx).v2) (voxelCenter ijk) <
        triToPtnDistSqr (pts (polys polyIdx).v0) (pts (polys polyIdx).v1)
        (pts (polys polyIdx).v2) (voxelCenter ijk)
    · rw [if_pos h, min_eq_right (le_of_lt h)]
    · rw [if_neg h, min_eq_left (le_of_not_lt h)]
  · simp only [if_neg hq]

end Lemmas

/-- C1: the constructor stores std::min(signSweeps, 1), so a
caller-supplied sweep count of 3 yields a single (contour trace, sign
propagation) alternation instead of three, and a count of 0 yields none
instead of at least one; the clamp is min, not the max the spec intends. -/
theorem signSweeps_clamped_by_min :
    effectiveSignSweeps 3 = 1 ∧ performedSignSweeps 3 = 1 ∧
    performedSignSweeps 0 = 0 ∧ performedSignSweeps 3 ≠ 3 := by
  refine ⟨rfl, rfl, rfl, ?_⟩
  decide

/-- C2: evalVoxel computes the squared distance from the voxel center to
the triangle (v0, v1, v2) - and to (v0, v3, v2) when the primitive is a
quad, taking the minimum.  It performs the write of (-distance, index)
exactly when the distance beats the magnitude of the stored value, leaving
the state untouched otherwise, and returns true exactly when the distance
is below 0.86602540378443861. -/
theorem evalVoxel_spec (pts : ℕ → Vec3) (polys : ℕ → Vec4I)
    (triToPtnDistSqr : Vec3 → Vec3 → Vec3 → Vec3 → ℚ) (s : VoxState)
    (ijk : Coord) (polyIdx : ℕ) :
    ((evalVoxel pts polys triToPtnDistSqr s ijk polyIdx).2 = true ↔
      evalVoxelDistClaim pts polys triToPtnDistSqr ijk polyIdx < pruneConst) ∧
    ((evalVoxel pts polys triToPtnDistSqr s ijk polyIdx).1 =
      if evalVoxelDistClaim pts polys triToPtnDistSqr ijk polyIdx < |s.dsq ijk| then
        { s with
            dsq := Function.update s.dsq ijk
              (-(evalVoxelDistClaim pts polys triToPtnDistSqr ijk polyIdx)),
            act := Function.update s.act ijk true,
            idx := Function.update s.idx ijk (polyIdx : ℤ) }
      else s) := by
  unfold evalVoxel
  rw [primDistSqr_eq_claim]
  exact ⟨by simp, rfl⟩

/-- C4, counterexample: the triangle with vertices (0,0,0), (199,0,0) and
(-199,0,0) has an x-extent of 398 (its v1-to-v2 edge spans 398 index
units), yet shortEdge classifies it as short-edge, because the source
only inspects the v0-to-v1 and v0-to-v2 differences. -/
theorem shortEdge_counterexample :
    shortEdge (0, 0, 0) (199, 0, 0) (-199, 0, 0) = true ∧
    shortEdgeClaim (0, 0, 0) (199, 0, 0) (-199, 0, 0) = false := by
  constructor
  · unfold shortEdge
    norm_num
  · unfold shortEdgeClaim
    norm_num

/-- C4, amended: a primitive is classified short-edge exactly when every
axis-wise extent of the v0-to-v1 edge and of the v0-to-v2 edge is
strictly below 200 index units (the v1-to-v2 edge is not examined). -/
theorem shortEdge_spec (p0 p1 p2 : Vec3) :
    shortEdge p0 p1 p2 = true ↔
      (|p1.1 - p0.1| < 200 ∧ |p1.2.1 - p0.2.1| < 200 ∧ |p1.2.2 - p0.2.2| < 200 ∧
       |p0.1 - p2.1| < 200 ∧ |p0.2.1 - p2.2.1| < 200 ∧ |p0.2.2 - p2.2.2| < 200) := by
  unfold shortEdge
  simp only [decide_eq_true_eq, max_lt_iff]
  tauto

/-- C9: the narrow-band dilation block of doConvert runs exactly when the
interior or the exterior world-space band width strictly exceeds twice
the voxel size; when both are at most twice the voxel size the whole
stage is skipped and the distance grid is returned unchanged. -/
theorem narrowBand_expansion_gate_spec (voxelSize inBandWidth exBandWidth : ℚ)
    (stage : DGrid → DGrid) (g : DGrid) :
    (narrowBandGate voxelSize inBandWidth exBandWidth = true ↔
      (2 * voxelSize < inBandWidth ∨ 2 * voxelSize < exBandWidth)) ∧
    (inBandWidth ≤ 2 * voxelSize → exBandWidth ≤ 2 * voxelSize →
      expansionPhase voxelSize inBandWidth exBandWidth stage g = g) ∧
    (narrowBandGate voxelSize inBandWidth exBandWidth = true →
      expansionPhase voxelSize inBandWidth exBandWidth stage g = stage g) := by
  refine ⟨?_, ?_, ?_⟩
  · simp [narrowBandGate, mul_comm]
  · intro h1 h2
    have g1 : ¬(voxelSize * 2 < inBandWidth) := by linarith
    have g2 : ¬(voxelSize * 2 < exBandWidth) := by linarith
    simp [expansionPhase, narrowBandGate, g1, g2]
  · intro h
    simp [expansionPhase, h]

/-- C9, witness: with unit voxel size and both band widths equal to one,
the expansion stage is skipped and the grid passes through unchanged. -/
theorem narrowBand_expansion_gate_spec_witness :
    expansionPhase 1 1 1 (fun _ => ⟨fun _ => 0, fun _ => false⟩)
        ⟨fun _ => 5, fun _ => true⟩ = ⟨fun _ => 5, fun _ => true⟩ :=
  (narrowBand_expansion_gate_spec 1 1 1 (fun _ => ⟨fun _ => 0, fun _ => false⟩)
    ⟨fun _ => 5, fun _ => true⟩).2.1 (by norm_num) (by norm_num)

/-- C10: the trim pass deactivates an active nonnegative voxel (writing
+exBandWidth) exactly when its value is not below the INTERIOR band
width, deactivates an active negative voxel (writing -inBandWidth)
exactly when its value is not above -inBandWidth, and is idempotent:
voxels turned off are not revisited and surviving voxels trigger no
condition on a second pass. -/
theorem trimOp_spec (exBandWidth inBandWidth : ℚ) (g : DGrid) (c : Coord) :
    ((trimOp exBandWidth inBandWidth g).act c = false ↔
      (g.act c = false ∨ (g.val c < 0 ∧ ¬(-inBandWidth < g.val c)) ∨
       (¬(g.val c < 0) ∧ ¬(g.val c < inBandWidth)))) ∧
    ((trimOp exBandWidth inBandWidth g).val c =
      if g.act c = true then
        if g.val c < 0 ∧ ¬(-inBandWidth < g.val c) then -inBandWidth
        else if ¬(g.val c < 0) ∧ ¬(g.val c < inBandWidth) then exBandWidth
        else g.val c
      else g.val c) ∧
    ((trimOp exBandWidth inBandWidth (trimOp exBandWidth inBandWidth g)).val c =
      (trimOp exBandWidth inBandWidth g).val c) ∧
    ((trimOp exBandWidth inBandWidth (trimOp exBandWidth inBandWidth g)).act c =
      (trimOp exBandWidth inBandWidth g).act c) := by
  by_cases hact : g.act c = true
  · by_cases hneg : g.val c < 0
    · have k0 : ¬(0 ≤ g.val c) := not_le.2 hneg
      by_cases hin1 : -inBandWidth < g.val c
      · have k1 : ¬(g.val c ≤ -inBandWidth) := not_le.2 hin1
        have hv : (trimOp exBandWidth inBandWidth g).val c = g.val c := by
          rw [trimOp_val]; simp [hact, hneg, k0, k1]
        have ha : (trimOp exBandWidth inBandWidth g).act c = true := by
          rw [trimOp_act]; simp [hact, hneg, k0, k1]
        refine ⟨?_, ?_, ?_, ?_⟩
        · rw [trimOp_act]; simp [hact, hneg, k0, k1]
        · rw [trimOp_val, hact]
        · rw [trimOp_val exBandWidth inBandWidth (trimOp exBandWidth inBandWidth g) c,
            ha, hv]
          simp [hneg, k0, k1]
        · rw [trimOp_act exBandWidth inBandWidth (trimOp exBandWidth inBandWidth g) c,
            ha, hv]
          simp [hneg, k0, k1]
      · have k1 : g.val c ≤ -inBandWidth := not_lt.1 hin1
        have hv : (trimOp exBandWidth inBandWidth g).val c = -inBandWidth := by
          rw [trimOp_val]; simp [hact, hneg, hin1, k1]
        have ha : (trimOp exBandWidth inBandWidth g).act c = false := by
          rw [trimOp_act]; simp [hact, hneg, hin1, k1]
        refine ⟨?_, ?_, ?_, ?_⟩
        · rw [trimOp_act]; simp [hact, hneg, hin1, k1]
        · rw [trimOp_val, hact]
        · rw [trimOp_val exBandWidth inBandWidth (trimOp exBandWidth inBandWidth g) c, ha]
          simp
        · rw [trimOp_act exBandWidth inBandWidth (trimOp exBandWidth inBandWidth g) c, ha]
          simp
    · have k0 : 0 ≤ g.val c := not_lt.1 hneg
      by_cases hin2 : g.val c < inBandWidth
      · have k2 : ¬(inBandWidth ≤ g.val c) := not_le.2 hin2
        have hv : (trimOp exBandWidth inBandWidth g).val c = g.val c := by
          rw [trimOp_val]; simp [hact, hneg, k0, k2]
        have ha : (trimOp exBandWidth inBandWidth g).act c = true := by
          rw [trimOp_act]; simp [hact, hneg, k0, k2]
        refine ⟨?_, ?_, ?_, ?_⟩
        · rw [trimOp_act]; simp [hact, hneg, k0, k2]
        · rw [trimOp_val, hact]
        · rw [trimOp_val exBandWidth inBandWidth (trimOp exBandWidth inBandWidth g) c,
            ha, hv]
          simp [hneg, k0, k2]
        · rw [trimOp_act exBandWidth inBandWidth (trimOp exBandWidth inBandWidth g) c,
            ha, hv]
          simp [hneg, k0, k2]
      · have k2 : inBandWidth ≤ g.val c := not_lt.1 hin2
        have hv : (trimOp exBandWidth inBandWidth g).val c = exBandWidth := by
          rw [trimOp_val]; simp [hact, hneg, k0, hin2, k2]
        have ha : (trimOp exBandWidth inBandWidth g).act c = false := by
          rw [trimOp_act]; simp [hact, hneg, k0, hin2, k2]
        refine ⟨?_, ?_, ?_, ?_⟩
        · rw [trimOp_act]; simp [hact, hneg, k0, hin2, k2]
        · rw [trimOp_val, hact]
        · rw [trimOp_val exBandWidth inBandWidth (trimOp exBandWidth inBandWidth g) c, ha]
          simp
        · rw [trimOp_act exBandWidth inBandWidth (trimOp exBandWidth inBandWidth g) c, ha]
          simp
  · have hb : g.act c = false := by simpa using hact
    have hv : (trimOp exBandWidth inBandWidth g).val c = g.val c := by
      rw [trimOp_val, hb]; simp
    have ha : (trimOp exBandWidth inBandWidth g).act c = false := by
      rw [trimOp_act, hb]; simp
    refine ⟨?_, ?_, ?_, ?_⟩
    · rw [ha]; simp [hb]
    · rw [hv, hb]; simp
    · rw [trimOp_val exBandWidth inBandWidth (trimOp exBandWidth inBandWidth g) c, ha]
      simp
    · rw [trimOp_act exBandWidth inBandWidth (trimOp exBandWidth inBandWidth g) c, ha]
      simp

/-- C3, counterexample: an active non-shell voxel with value -1/10 whose
+i face neighbor is a shell voxel is written to -0.86602540378443861 by
the shell-voxel cleaner; the larger of -1/10 and that constant is -1/10,
so the stored value is not max(previous, -0.866...) as the claim states
(the code clamps downward, not upward). -/
theorem shellVoxelCleaner_clamp_counterexample :
    (shellVoxelClean ⟨fun _ => -(1 / 10), fun _ => true⟩ ⟨fun _ => 7, fun _ => true⟩
        (fun c => decide (c = ((1 : ℤ), (0 : ℤ), (0 : ℤ)))) floatMax (-1)
        (0, 0, 0)).1.val (0, 0, 0) = -pruneConst ∧
    (shellVoxelClean ⟨fun _ => -(1 / 10), fun _ => true⟩ ⟨fun _ => 7, fun _ => true⟩
        (fun c => decide (c = ((1 : ℤ), (0 : ℤ), (0 : ℤ)))) floatMax (-1)
        (0, 0, 0)).1.val (0, 0, 0) ≠ max (-(1 / 10) : ℚ) (-pruneConst) ∧
    max (-(1 / 10) : ℚ) (-pruneConst) = -(1 / 10) := by
  have hmax : max (-(1 / 10) : ℚ) (-pruneConst) = -(1 / 10) :=
    max_eq_left (by norm_num [pruneConst])
  have hval : (shellVoxelClean ⟨fun _ => -(1 / 10), fun _ => true⟩
      ⟨fun _ => 7, fun _ => true⟩
      (fun c => decide (c = ((1 : ℤ), (0 : ℤ), (0 : ℤ)))) floatMax (-1)
      (0, 0, 0)).1.val (0, 0, 0) = -pruneConst := by
    have hall : (offsets18.all
        (fun o => !((fun c => decide (c = ((1 : ℤ), (0 : ℤ), (0 : ℤ))))
          (((0 : ℤ), (0 : ℤ), (0 : ℤ)) + o)))) = false := by decide
    simp only [shellVoxelClean, hall]
    norm_num [pruneConst, Function.update, Prod.ext_iff]
  exact ⟨hval, by rw [hval, hmax]; norm_num [pruneConst], hmax⟩

/-- C3, amended: for an active non-shell voxel with value at most zero,
the cleaner deactivates it in both the distance and the index tree when
no 18-neighbor is a shell voxel; otherwise the stored value becomes the
SMALLER of its previous value and -0.86602540378443861 (a downward
clamp), with all other voxels untouched. -/
theorem shellVoxelCleaner_spec (D : DGrid) (I : IGrid) (mask : Coord → Bool)
    (distBG : ℚ) (indexBG : ℤ) (c : Coord)
    (hact : D.act c = true) (hval : ¬(0 < D.val c)) (hmask : mask c = false) :
    (offsets18.all (fun o => !(mask (c + o))) = true →
       (shellVoxelClean D I mask distBG indexBG c).1.val c = distBG ∧
       (shellVoxelClean D I mask distBG indexBG c).1.act c = false ∧
       (shellVoxelClean D I mask distBG indexBG c).2.val c = indexBG ∧
       (shellVoxelClean D I mask distBG indexBG c).2.act c = false) ∧
    (offsets18.all (fun o => !(mask (c + o))) = false →
       (shellVoxelClean D I mask distBG indexBG c).2 = I ∧
       (shellVoxelClean D I mask distBG indexBG c).1.act = D.act ∧
       (shellVoxelClean D I mask distBG indexBG c).1.val c =
         min (D.val c) (-pruneConst) ∧
       (∀ c2, c2 ≠ c →
         (shellVoxelClean D I mask distBG indexBG c).1.val c2 = D.val c2)) := by
  constructor
  · intro hall
    simp only [shellVoxelClean, hact, hmask, hall]
    simp [hval, Function.update_same]
  · intro hall
    simp only [shellVoxelClean, hact, hmask, hall]
    by_cases hlt : -pruneConst < D.val c
    · simp only [hval, if_false, Bool.false_eq_true, if_pos hlt]
      refine ⟨?_, ?_, ?_, ?_⟩
      · simp [hval]
      · simp [hval]
      · simp [hval, Function.update_same, min_eq_right (le_of_lt hlt)]
      · intro c2 hc2
        simp [hval, Function.update_noteq hc2]
    · simp only [hval, if_false, Bool.false_eq_true, if_neg hlt]
      refine ⟨?_, ?_, ?_, ?_⟩
      · simp [hval]
      · simp [hval]
      · simp [hval, min_eq_left (le_of_not_lt hlt)]
      · intro c2 hc2
        simp [hval]

/-- C3, witness of the amended clamp at the counterexample voxel: the
cleaner stores the minimum of -1/10 and -0.86602540378443861. -/
theorem shellVoxelCleaner_spec_witness :
    (shellVoxelClean ⟨fun _ => -(1 / 10), fun _ => true⟩ ⟨fun _ => 7, fun _ => true⟩
        (fun c => decide (c = ((1 : ℤ), (0 : ℤ), (0 : ℤ)))) floatMax (-1)
        (0, 0, 0)).1.val (0, 0, 0) = min (-(1 / 10) : ℚ) (-pruneConst) :=
  ((shellVoxelCleaner_spec ⟨fun _ => -(1 / 10), fun _ => true⟩
      ⟨fun _ => 7, fun _ => true⟩
      (fun c => decide (c = ((1 : ℤ), (0 : ℤ), (0 : ℤ)))) floatMax (-1) (0, 0, 0)
      rfl (by norm_num) (by decide)).2 (by decide)).2.2.1

section MergeLaws

/-- The background of the squared-distance tree is positive. -/
lemma floatMax_pos : (0 : ℚ) < floatMax := by norm_num [floatMax]

/-- Pointwise behavior of the merge in the three activity cases of a
well-formed pair of partial results. -/
lemma joinVox_shape (L R : VoxState) (hL : WfVox L) (hR : WfVox R) (c : Coord) :
    (R.act c = false →
      (joinVox L R).dsq c = L.dsq c ∧ (joinVox L R).act c = L.act c ∧
      (joinVox L R).idx c = L.idx c) ∧
    (L.act c = false → R.act c = true →
      (joinVox L R).dsq c = R.dsq c ∧ (joinVox L R).act c = true ∧
      (joinVox L R).idx c = R.idx c) ∧
    (L.act c = true → R.act c = true →
      (joinVox L R).dsq c = max (L.dsq c) (R.dsq c) ∧ (joinVox L R).act c = true ∧
      (joinVox L R).idx c = if L.dsq c < R.dsq c then R.idx c else L.idx c) := by
  refine ⟨?_, ?_, ?_⟩
  · intro hb
    have hc : ¬(R.act c = true ∧ -(R.dsq c) < |L.dsq c|) := by
      rintro ⟨h1, -⟩
      rw [hb] at h1
      cases h1
    exact ⟨by simp [joinVox, hc], by simp [joinVox, hc], by simp [joinVox, hc]⟩
  · intro ha hb
    have hM : L.dsq c = floatMax := (hL c).1 ha
    have hr := (hR c).2 hb
    have hc : R.act c = true ∧ -(R.dsq c) < |L.dsq c| := by
      refine ⟨hb, ?_⟩
      rw [hM, abs_of_pos floatMax_pos]
      linarith [hr.1]
    exact ⟨by simp [joinVox, hc], by simp [joinVox, hc], by simp [joinVox, hc]⟩
  · intro ha hb
    have hl := (hL c).2 ha
    have habs : |L.dsq c| = -(L.dsq c) := abs_of_nonpos hl.2
    by_cases hlt : L.dsq c < R.dsq c
    · have hc : R.act c = true ∧ -(R.dsq c) < |L.dsq c| := ⟨hb, by rw [habs]; linarith⟩
      refine ⟨?_, by simp [joinVox, hc], by simp [joinVox, hc, hlt]⟩
      simp [joinVox, hc, max_eq_right (le_of_lt hlt)]
    · have hc : ¬(R.act c = true ∧ -(R.dsq c) < |L.dsq c|) := by
        rintro ⟨-, h⟩
        rw [habs] at h
        exact hlt (by linarith)
      refine ⟨?_, by simp [joinVox, hc, ha], by simp [joinVox, hc, hlt]⟩
      simp [joinVox, hc, max_eq_left (le_of_not_lt hlt)]

/-- The merge of two well-formed partial results is well-formed. -/
lemma joinVox_wf (L R : VoxState) (hL : WfVox L) (hR : WfVox R) :
    WfVox (joinVox L R) := by
  intro c
  by_cases hb : R.act c = true
  · by_cases ha : L.act c = true
    · obtain ⟨hd, hac, -⟩ := (joinVox_shape L R hL hR c).2.2 ha hb
      refine ⟨fun h => ?_, fun _ => ?_⟩
      · rw [hac] at h
        cases h
      · have h1 := (hL c).2 ha
        have h2 := (hR c).2 hb
        rw [hd]
        exact ⟨lt_max_of_lt_left h1.1, max_le h1.2 h2.2⟩
    · have ha2 : L.act c = false := by simpa using ha
      obtain ⟨hd, hac, -⟩ := (joinVox_shape L R hL hR c).2.1 ha2 hb
      refine ⟨fun h => ?_, fun _ => ?_⟩
      · rw [hac] at h
        cases h
      · rw [hd]
        exact (hR c).2 hb
  · have hb2 : R.act c = false := by simpa using hb
    obtain ⟨hd, hac, -⟩ := (joinVox_shape L R hL hR c).1 hb2
    rw [hd, hac]
    exact hL c

/-- An inactive merged voxel comes from two inactive voxels. -/
lemma joinVox_act_false (L R : VoxState) (hL : WfVox L) (hR : WfVox R) (c : Coord)
    (h : (joinVox L R).act c = false) : L.act c = false ∧ R.act c = false := by
  by_cases hb : R.act c = true
  · by_cases ha : L.act c = true
    · rw [((joinVox_shape L R hL hR c).2.2 ha hb).2.1] at h
      cases h
    · rw [((joinVox_shape L R hL hR c).2.1 (by simpa using ha) hb).2.1] at h
      cases h
  · have hb2 : R.act c = false := by simpa using hb
    have hac := ((joinVox_shape L R hL hR c).1 hb2).2.1
    rw [hac] at h
    exact ⟨h, hb2⟩

/-- A voxel of a partial result viewed as an optional (value, index)
pair: none when inactive. -/
def voxOpt (X : VoxState) (c : Coord) : Option (ℚ × ℤ) :=
  if X.act c = true then some (X.dsq c, X.idx c) else none

/-- The pointwise merge rule of joinVox on optional voxels. -/
def mergeOpt : Option (ℚ × ℤ) → Option (ℚ × ℤ) → Option (ℚ × ℤ)
  | x, none => x
  | none, some y => some y
  | some x, some y => if x.1 < y.1 then some y else some x

lemma mergeOpt_none_right (x : Option (ℚ × ℤ)) : mergeOpt x none = x := by
  cases x <;> rfl

lemma mergeOpt_none_left (y : Option (ℚ × ℤ)) : mergeOpt none y = y := by
  cases y <;> rfl

lemma mergeOpt_some_some (a b : ℚ × ℤ) :
    mergeOpt (some a) (some b) = if a.1 < b.1 then some b else some a := rfl

/-- The pointwise merge is associative, index included. -/
lemma mergeOpt_assoc (x y z : Option (ℚ × ℤ)) :
    mergeOpt (mergeOpt x y) z = mergeOpt x (mergeOpt y z) := by
  rcases x with _ | a
  · rw [mergeOpt_none_left, mergeOpt_none_left]
  · rcases y with _ | b
    · rw [mergeOpt_none_right, mergeOpt_none_left]
    · rcases z with _ | c2
      · rw [mergeOpt_none_right, mergeOpt_none_right]
      · by_cases h1 : a.1 < b.1
        · by_cases h2 : b.1 < c2.1
          · rw [mergeOpt_some_some a b, if_pos h1, mergeOpt_some_some b c2, if_pos h2,
              mergeOpt_some_some a c2, if_pos (lt_trans h1 h2)]
          · rw [mergeOpt_some_some a b, if_pos h1, mergeOpt_some_some b c2, if_neg h2,
              mergeOpt_some_some a b, if_pos h1]
        · by_cases h2 : b.1 < c2.1
          · rw [mergeOpt_some_some a b, if_neg h1, mergeOpt_some_some b c2, if_pos h2]
          · rw [mergeOpt_some_some a b, if_neg h1, mergeOpt_some_some b c2, if_neg h2,
              mergeOpt_some_some a c2,
              if_neg (not_lt.2 (le_trans (le_of_not_lt h2) (le_of_not_lt h1))),
              mergeOpt_some_some a b, if_neg h1]

lemma mergeOpt_isSome (x y : Option (ℚ × ℤ)) :
    (mergeOpt x y).isSome = (x.isSome || y.isSome) := by
  rcases x with _ | a <;> rcases y with _ | b
  · rfl
  · rfl
  · rfl
  · rw [mergeOpt_some_some]
    by_cases h1 : a.1 < b.1
    · rw [if_pos h1]
      rfl
    · rw [if_neg h1]
      rfl

/-- The merged value (distance component) is symmetric in the arguments. -/
lemma mergeOpt_fst (x y : Option (ℚ × ℤ)) :
    (mergeOpt x y).map Prod.fst = (mergeOpt y x).map Prod.fst := by
  rcases x with _ | a
  · rw [mergeOpt_none_left, mergeOpt_none_right]
  · rcases y with _ | b
    · rw [mergeOpt_none_left, mergeOpt_none_right]
    · by_cases h1 : a.1 < b.1
      · rw [mergeOpt_some_some, mergeOpt_some_some, if_pos h1, if_neg (lt_asymm h1)]
      · by_cases h2 : b.1 < a.1
        · rw [mergeOpt_some_some, mergeOpt_some_some, if_neg h1, if_pos h2]
        · rw [mergeOpt_some_some, mergeOpt_some_some, if_neg h1, if_neg h2]
          show some a.1 = some b.1
          rw [le_antisymm (le_of_not_lt h2) (le_of_not_lt h1)]

lemma voxOpt_eq_some (X : VoxState) (c : Coord) (hact : X.act c = true) :
    voxOpt X c = some (X.dsq c, X.idx c) := by
  simp [voxOpt, hact]

lemma voxOpt_eq_none (X : VoxState) (c : Coord) (hact : X.act c = false) :
    voxOpt X c = none := by
  simp [voxOpt, hact]

lemma voxOpt_isSome (X : VoxState) (c : Coord) : X.act c = (voxOpt X c).isSome := by
  cases h : X.act c <;> simp [voxOpt, h]

/-- The merge of partial results computes the pointwise option merge. -/
lemma voxOpt_join (L R : VoxState) (hL : WfVox L) (hR : WfVox R) (c : Coord) :
    voxOpt (joinVox L R) c = mergeOpt (voxOpt L c) (voxOpt R c) := by
  by_cases hb : R.act c = true
  · by_cases ha : L.act c = true
    · obtain ⟨hd, hac, hi⟩ := (joinVox_shape L R hL hR c).2.2 ha hb
      rw [voxOpt_eq_some _ _ hac, voxOpt_eq_some _ _ ha, voxOpt_eq_some _ _ hb,
        mergeOpt_some_some, hd, hi]
      by_cases hlt : L.dsq c < R.dsq c
      · simp only [hlt, if_true, ite_true]
        rw [max_eq_right (le_of_lt hlt)]
      · simp only [hlt, if_false, ite_false]
        rw [max_eq_left (le_of_not_lt hlt)]
    · have ha2 : L.act c = false := by simpa using ha
      obtain ⟨hd, hac, hi⟩ := (joinVox_shape L R hL hR c).2.1 ha2 hb
      rw [voxOpt_eq_some _ _ hac, voxOpt_eq_none _ _ ha2, voxOpt_eq_some _ _ hb,
        mergeOpt_none_left, hd, hi]
  · have hb2 : R.act c = false := by simpa using hb
    obtain ⟨hd, hac, hi⟩ := (joinVox_shape L R hL hR c).1 hb2
    rw [voxOpt_eq_none _ _ hb2, mergeOpt_none_right]
    unfold voxOpt
    rw [hac, hd, hi]

/-- Equality of option views forces equality of value and activity, and
of the index on active voxels. -/
lemma fields_eq_of_voxOpt (X Y : VoxState) (hX : WfVox X) (hY : WfVox Y) (c : Coord)
    (hv : voxOpt X c = voxOpt Y c) :
    X.dsq c = Y.dsq c ∧ X.act c = Y.act c ∧
    (X.act c = true → X.idx c = Y.idx c) := by
  by_cases ha : X.act c = true
  · rw [voxOpt_eq_some _ _ ha] at hv
    by_cases hb : Y.act c = true
    · rw [voxOpt_eq_some _ _ hb] at hv
      have h2 := Option.some.inj hv
      exact ⟨congrArg Prod.fst h2, by rw [ha, hb], fun _ => congrArg Prod.snd h2⟩
    · rw [voxOpt_eq_none _ _ (by simpa using hb)] at hv
      cases hv
  · have ha2 : X.act c = false := by simpa using ha
    rw [voxOpt_eq_none _ _ ha2] at hv
    by_cases hb : Y.act c = true
    · rw [voxOpt_eq_some _ _ hb] at hv
      cases hv
    · have hb2 : Y.act c = false := by simpa using hb
      refine ⟨?_, by rw [ha2, hb2], fun h => by rw [ha2] at h; cases h⟩
      rw [(hX c).1 ha2, (hY c).1 hb2]

end MergeLaws

/-- C5: the pairwise merge of partial voxelizer results overwrites the
left value and index at every active voxel of the right result exactly
when the negated right value is below the magnitude of the left value,
merges the intersection masks by union, is commutative in the stored
distances, activity, and masks (the primitive index may differ on exact
ties), is fully associative, and keeps the first-written primitive index
on numerically identical distances. -/
theorem joinVox_merge_laws (L R S : VoxState)
    (hL : WfVox L) (hR : WfVox R) (hS : WfVox S) :
    (∀ c, (joinVox L R).dsq c =
        if R.act c = true ∧ -(R.dsq c) < |L.dsq c| then R.dsq c else L.dsq c) ∧
    (∀ c, (joinVox L R).idx c =
        if R.act c = true ∧ -(R.dsq c) < |L.dsq c| then R.idx c else L.idx c) ∧
    (∀ c, (joinVox L R).mask c = (L.mask c || R.mask c)) ∧
    (∀ c, (joinVox L R).dsq c = (joinVox R L).dsq c ∧
          (joinVox L R).act c = (joinVox R L).act c ∧
          (joinVox L R).mask c = (joinVox R L).mask c) ∧
    (∀ c, L.act c = true → R.act c = true → L.dsq c = R.dsq c →
          (joinVox L R).idx c = L.idx c) ∧
    (∀ c, (joinVox (joinVox L R) S).dsq c = (joinVox L (joinVox R S)).dsq c ∧
          (joinVox (joinVox L R) S).act c = (joinVox L (joinVox R S)).act c ∧
          (joinVox (joinVox L R) S).idx c = (joinVox L (joinVox R S)).idx c ∧
          (joinVox (joinVox L R) S).mask c = (joinVox L (joinVox R S)).mask c) := by
  have hLR := joinVox_wf L R hL hR
  have hRL := joinVox_wf R L hR hL
  have hRS := joinVox_wf R S hR hS
  have hA := joinVox_wf (joinVox L R) S hLR hS
  have hB := joinVox_wf L (joinVox R S) hL hRS
  refine ⟨fun c => rfl, fun c => rfl, fun c => rfl, ?_, ?_, ?_⟩
  · intro c
    have hs : (joinVox L R).act c = (joinVox R L).act c := by
      rw [voxOpt_isSome, voxOpt_isSome, voxOpt_join L R hL hR, voxOpt_join R L hR hL,
        mergeOpt_isSome, mergeOpt_isSome, Bool.or_comm]
    have hv : (voxOpt (joinVox L R) c).map Prod.fst =
        (voxOpt (joinVox R L) c).map Prod.fst := by
      rw [voxOpt_join L R hL hR, voxOpt_join R L hR hL, mergeOpt_fst]
    refine ⟨?_, hs, Bool.or_comm _ _⟩
    by_cases ha : (joinVox L R).act c = true
    · have hb : (joinVox R L).act c = true := by rw [← hs]; exact ha
      rw [voxOpt_eq_some _ _ ha, voxOpt_eq_some _ _ hb] at hv
      simpa using hv
    · have ha2 : (joinVox L R).act c = false := by simpa using ha
      have hb2 : (joinVox R L).act c = false := by rw [← hs]; exact ha2
      rw [(hLR c).1 ha2, (hRL c).1 hb2]
  · intro c ha hb heq
    have hi := ((joinVox_shape L R hL hR c).2.2 ha hb).2.2
    rw [hi, heq, if_neg (lt_irrefl _)]
  · intro c
    have hv : voxOpt (joinVox (joinVox L R) S) c =
        voxOpt (joinVox L (joinVox R S)) c := by
      rw [voxOpt_join (joinVox L R) S hLR hS, voxOpt_join L R hL hR, mergeOpt_assoc,
        ← voxOpt_join R S hR hS, ← voxOpt_join L (joinVox R S) hL hRS]
    obtain ⟨e1, e2, e3⟩ := fields_eq_of_voxOpt _ _ hA hB c hv
    refine ⟨e1, e2, ?_, Bool.or_assoc _ _ _⟩
    by_cases ha : (joinVox (joinVox L R) S).act c = true
    · exact e3 ha
    · have ha2 : (joinVox (joinVox L R) S).act c = false := by simpa using ha
      obtain ⟨h1, h2⟩ := joinVox_act_false (joinVox L R) S hLR hS c ha2
      obtain ⟨h3, h4⟩ := joinVox_act_false L R hL hR c h1
      have i1 : (joinVox (joinVox L R) S).idx c = (joinVox L R).idx c :=
        ((joinVox_shape (joinVox L R) S hLR hS c).1 h2).2.2
      have i2 : (joinVox L R).idx c = L.idx c :=
        ((joinVox_shape L R hL hR c).1 h4).2.2
      have h5 : (joinVox R S).act c = false := by
        rw [((joinVox_shape R S hR hS c).1 h2).2.1, h4]
      have i3 : (joinVox L (joinVox R S)).idx c = L.idx c :=
        ((joinVox_shape L (joinVox R S) hL hRS c).1 h5).2.2
      rw [i1, i2, i3]

/-- C5, witness: merging an empty partial result with an everywhere
active one yields the same stored distance in either order. -/
theorem joinVox_merge_laws_witness :
    (joinVox ⟨fun _ => floatMax, fun _ => false, fun _ => 0, fun _ => false⟩
        ⟨fun _ => -1, fun _ => true, fun _ => 7, fun _ => false⟩).dsq (0, 0, 0) =
      (joinVox ⟨fun _ => -1, fun _ => true, fun _ => 7, fun _ => false⟩
        ⟨fun _ => floatMax, fun _ => false, fun _ => 0, fun _ => false⟩).dsq (0, 0, 0) :=
  by
  have w1 : WfVox ⟨fun _ => floatMax, fun _ => false, fun _ => 0, fun _ => false⟩ := by
    intro c
    refine ⟨fun _ => rfl, fun h => ?_⟩
    cases h
  have w2 : WfVox ⟨fun _ => -1, fun _ => true, fun _ => 7, fun _ => false⟩ := by
    intro c
    refine ⟨fun h => ?_, fun _ => ?_⟩
    · cases h
    · norm_num [floatMax]
  exact ((joinVox_merge_laws _ _ _ w1 w2 w1).2.2.2.1 (0, 0, 0)).1

section ExpandLemmas

/-- The neighbor scan never increases its accumulator. -/
lemma getDistLoop_le (D : DGrid) (I : IGrid) (p : Coord) :
    ∀ (os : List Coord) (dist : ℚ) (prim : ℤ),
      (getDistLoop D I p os dist prim).1 ≤ dist := by
  intro os
  induction os with
  | nil => intro dist prim; exact le_refl _
  | cons o os ih =>
      intro dist prim
      simp only [getDistLoop]
      split_ifs with h1 h2
      · exact le_trans (ih _ _) (le_of_lt h2)
      · exact ih _ _
      · exact ih _ _

/-- The scan result is at most the magnitude of every active visited
neighbor. -/
lemma getDistLoop_min (D : DGrid) (I : IGrid) (p : Coord) :
    ∀ (os : List Coord) (dist : ℚ) (prim : ℤ) (o : Coord),
      o ∈ os → D.act (p + o) = true →
      (getDistLoop D I p os dist prim).1 ≤ |D.val (p + o)| := by
  intro os
  induction os with
  | nil => intro dist prim o ho; cases ho
  | cons o2 os ih =>
      intro dist prim o ho hact
      rcases List.mem_cons.1 ho with rfl | ho2
      · simp only [getDistLoop, hact, if_true, ite_true]
        by_cases h2 : |D.val (p + o)| < dist
        · simp only [h2, if_true, ite_true]
          exact getDistLoop_le D I p os _ _
        · simp only [h2, if_false, ite_false]
          exact le_trans (getDistLoop_le D I p os _ _) (le_of_not_lt h2)
      · simp only [getDistLoop]
        split_ifs with h1 h2
        · exact ih _ _ _ ho2 hact
        · exact ih _ _ _ ho2 hact
        · exact ih _ _ _ ho2 hact

/-- The scan either keeps its initial accumulator or returns the
magnitude and recorded primitive of some active visited neighbor. -/
lemma getDistLoop_src (D : DGrid) (I : IGrid) (p : Coord) :
    ∀ (os : List Coord) (dist : ℚ) (prim : ℤ),
      ((getDistLoop D I p os dist prim).1 = dist ∧
       (getDistLoop D I p os dist prim).2 = prim) ∨
      ∃ o ∈ os, D.act (p + o) = true ∧
        (getDistLoop D I p os dist prim).2 = I.val (p + o) ∧
        (getDistLoop D I p os dist prim).1 = |D.val (p + o)| := by
  intro os
  induction os with
  | nil => intro dist prim; exact Or.inl ⟨rfl, rfl⟩
  | cons o os ih =>
      intro dist prim
      simp only [getDistLoop]
      split_ifs with h1 h2
      · rcases ih |D.val (p + o)| (I.val (p + o)) with ⟨e1, e2⟩ | ⟨o2, ho2, h3, h4, h5⟩
        · exact Or.inr ⟨o, List.mem_cons_self _ _, h1, e2, e1⟩
        · exact Or.inr ⟨o2, List.mem_cons_of_mem _ ho2, h3, h4, h5⟩
      · rcases ih dist prim with h | ⟨o2, ho2, h3, h4, h5⟩
        · exact Or.inl h
        · exact Or.inr ⟨o2, List.mem_cons_of_mem _ ho2, h3, h4, h5⟩
      · rcases ih dist prim with h | ⟨o2, ho2, h3, h4, h5⟩
        · exact Or.inl h
        · exact Or.inr ⟨o2, List.mem_cons_of_mem _ ho2, h3, h4, h5⟩

end ExpandLemmas

/-- C6: at a mask voxel whose distance-tree entry is not yet active (in
the branch where both leaves exist), the expansion step computes the
distance through the 18-neighbor scan followed by the exact recomputation
against the recorded primitive of the best neighbor, activates with
+distance when the tentative voxel is outside and the distance is below
the exterior band width, activates with -distance when it is inside and
the distance is below the interior band width, and otherwise clears the
voxel from the mask; the scan returns the smallest magnitude among active
neighbors together with a primitive recorded at a neighbor attaining it. -/
theorem expandVoxel_spec (pts : ℕ → Vec3) (polys : ℕ → Vec4I)
    (triToPtnDistSqr : Vec3 → Vec3 → Vec3 → Vec3 → ℚ) (sqrtFn : ℚ → ℚ)
    (voxelSize exBandWidth inBandWidth : ℚ) (D : DGrid) (I : IGrid)
    (p : Coord) (primIn : ℤ) (hp : D.act p = false) :
    (expandVoxel pts polys triToPtnDistSqr sqrtFn voxelSize exBandWidth inBandWidth
        D I p primIn =
      if ¬(D.val p < 0) ∧
          getDistToPrim pts polys triToPtnDistSqr sqrtFn voxelSize p
            (getDistLoop D I p offsets18 doubleMax primIn).2 < exBandWidth then
        (⟨Function.update D.val p
            (getDistToPrim pts polys triToPtnDistSqr sqrtFn voxelSize p
              (getDistLoop D I p offsets18 doubleMax primIn).2),
          Function.update D.act p true⟩,
         ⟨Function.update I.val p (getDistLoop D I p offsets18 doubleMax primIn).2,
          Function.update I.act p true⟩,
         true, (getDistLoop D I p offsets18 doubleMax primIn).2)
      else if D.val p < 0 ∧
          getDistToPrim pts polys triToPtnDistSqr sqrtFn voxelSize p
            (getDistLoop D I p offsets18 doubleMax primIn).2 < inBandWidth then
        (⟨Function.update D.val p
            (-(getDistToPrim pts polys triToPtnDistSqr sqrtFn voxelSize p
              (getDistLoop D I p offsets18 doubleMax primIn).2)),
          Function.update D.act p true⟩,
         ⟨Function.update I.val p (getDistLoop D I p offsets18 doubleMax primIn).2,
          Function.update I.act p true⟩,
         true, (getDistLoop D I p offsets18 doubleMax primIn).2)
      else (D, I, false, (getDistLoop D I p offsets18 doubleMax primIn).2)) ∧
    (∀ o ∈ offsets18, D.act (p + o) = true →
       (getDistLoop D I p offsets18 doubleMax primIn).1 ≤ |D.val (p + o)|) ∧
    (((getDistLoop D I p offsets18 doubleMax primIn).1 = doubleMax ∧
      (getDistLoop D I p offsets18 doubleMax primIn).2 = primIn) ∨
     ∃ o ∈ offsets18, D.act (p + o) = true ∧
       (getDistLoop D I p offsets18 doubleMax primIn).2 = I.val (p + o) ∧
       (getDistLoop D I p offsets18 doubleMax primIn).1 = |D.val (p + o)|) := by
  refine ⟨?_, fun o ho hact => getDistLoop_min D I p offsets18 doubleMax primIn o ho hact,
    getDistLoop_src D I p offsets18 doubleMax primIn⟩
  simp only [expandVoxel, hp]
  rw [if_neg Bool.false_ne_true]

/-- C6, witness: with a single active neighbor recorded in the trees, the
scan result is bounded by the magnitude of that neighbor. -/
theorem expandVoxel_spec_witness :
    (getDistLoop
        ⟨fun c => if c = ((1 : ℤ), (0 : ℤ), (0 : ℤ)) then -4 else 0,
         fun c => decide (c = ((1 : ℤ), (0 : ℤ), (0 : ℤ)))⟩
        ⟨fun _ => 3, fun c => decide (c = ((1 : ℤ), (0 : ℤ), (0 : ℤ)))⟩
        (0, 0, 0) offsets18 doubleMax 0).1 ≤
      |(⟨fun c => if c = ((1 : ℤ), (0 : ℤ), (0 : ℤ)) then -4 else 0,
         fun c => decide (c = ((1 : ℤ), (0 : ℤ), (0 : ℤ)))⟩ : DGrid).val
          (((0 : ℤ), (0 : ℤ), (0 : ℤ)) + ((1 : ℤ), (0 : ℤ), (0 : ℤ)))| :=
  (expandVoxel_spec (fun _ => (0, 0, 0)) (fun _ => ⟨0, 0, 0, INVALID_IDX⟩)
      (fun _ _ _ _ => 0) (fun _ => 0) 1 3 0
      ⟨fun c => if c = ((1 : ℤ), (0 : ℤ), (0 : ℤ)) then -4 else 0,
       fun c => decide (c = ((1 : ℤ), (0 : ℤ), (0 : ℤ)))⟩
      ⟨fun _ => 3, fun c => decide (c = ((1 : ℤ), (0 : ℤ), (0 : ℤ)))⟩
      (0, 0, 0) 0 (by decide)).2.1
    ((1 : ℤ), (0 : ℤ), (0 : ℤ)) (by decide) (by decide)

section TracerLemmas

/-- Coordinates differing in the k component are distinct. -/
lemma coord_ne_of_ne_k {i j k1 k2 : ℤ} (h : k1 ≠ k2) :
    ((i, j, k1) : Coord) ≠ (i, j, k2) := by
  intro he
  exact h (congrArg (fun c : Coord => c.2.2) he)

lemma flipVal_val_ne (D : DGrid) (c c2 : Coord) (h : c2 ≠ c) :
    (flipVal D c).val c2 = D.val c2 :=
  Function.update_noteq h _ _

lemma flipNeg_act (D : DGrid) (c : Coord) : (flipNeg D c).act = D.act := by
  unfold flipNeg flipVal
  split <;> rfl

lemma flipNeg_val_ne (D : DGrid) (c c2 : Coord) (h : c2 ≠ c) :
    (flipNeg D c).val c2 = D.val c2 := by
  unfold flipNeg
  split
  · exact flipVal_val_ne D c c2 h
  · rfl

lemma flipNeg_val_self (D : DGrid) (c : Coord) :
    (flipNeg D c).val c = if D.val c < 0 then -(D.val c) else D.val c := by
  unfold flipNeg flipVal
  split_ifs with h
  · exact Function.update_same _ _ _
  · rfl

/-- The backtrace only flips values; activity is untouched. -/
lemma backtrace_act (mask : Coord → Bool) (i j : ℤ) :
    ∀ (fuel : ℕ) (k : ℤ) (D : DGrid), (backtrace mask i j fuel k D).act = D.act := by
  intro fuel
  induction fuel with
  | zero => intro k D; rfl
  | succ n ih =>
      intro k D
      simp only [backtrace]
      split_ifs
      · rfl
      · rw [ih, flipNeg_act]

/-- Positions outside the walked column range are untouched. -/
lemma backtrace_untouched (mask : Coord → Bool) (i j : ℤ) :
    ∀ (fuel : ℕ) (k : ℤ) (D : DGrid) (c : Coord),
      (∀ m : ℤ, k - fuel < m → m ≤ k → c ≠ (i, j, m)) →
      (backtrace mask i j fuel k D).val c = D.val c := by
  intro fuel
  induction fuel with
  | zero => intro k D c h; rfl
  | succ n ih =>
      intro k D c h
      simp only [backtrace]
      split_ifs
      · rfl
      · have hc : c ≠ (i, j, k) := h k (by omega) le_rfl
        rw [ih (k - 1) _ c (fun m hm1 hm2 => h m (by omega) (by omega)),
          flipNeg_val_ne D (i, j, k) c hc]

/-- Positions at or below a boundary voxel of the walked range are
untouched: the walk stops when the intersection mask is hit. -/
lemma backtrace_boundary (mask : Coord → Bool) (i j : ℤ) :
    ∀ (fuel : ℕ) (k : ℤ) (D : DGrid) (k2 m0 : ℤ),
      k2 ≤ m0 → m0 ≤ k → mask (i, j, m0) = true →
      (backtrace mask i j fuel k D).val (i, j, k2) = D.val (i, j, k2) := by
  intro fuel
  induction fuel with
  | zero => intro k D k2 m0 h1 h2 h3; rfl
  | succ n ih =>
      intro k D k2 m0 h1 h2 h3
      simp only [backtrace]
      split_ifs with hmk
      · rfl
      · have hm0 : m0 ≤ k - 1 := by
          rcases lt_or_eq_of_le h2 with h | h
          · omega
          · exact absurd (h ▸ h3) hmk
        rw [ih (k - 1) _ k2 m0 h1 hm0 h3,
          flipNeg_val_ne D (i, j, k) (i, j, k2) (coord_ne_of_ne_k (by omega))]

/-- Positions inside the walked range with no boundary above them get
their negative values flipped. -/
lemma backtrace_flips (mask : Coord → Bool) (i j : ℤ) :
    ∀ (fuel : ℕ) (k : ℤ) (D : DGrid) (k2 : ℤ),
      k - fuel < k2 → k2 ≤ k →
      (∀ m : ℤ, k2 ≤ m → m ≤ k → mask (i, j, m) = false) →
      (backtrace mask i j fuel k D).val (i, j, k2) =
        if D.val (i, j, k2) < 0 then -(D.val (i, j, k2)) else D.val (i, j, k2) := by
  intro fuel
  induction fuel with
  | zero =>
      intro k D k2 h1 h2 h3
      exfalso
      omega
  | succ n ih =>
      intro k D k2 h1 h2 h3
      have hmk : mask (i, j, k) = false := h3 k h2 le_rfl
      simp only [backtrace]
      rw [if_neg (by rw [hmk]; exact Bool.false_ne_true)]
      by_cases he : k2 = k
      · subst he
        rw [backtrace_untouched mask i j n (k2 - 1) _ (i, j, k2)
          (fun m hm1 hm2 => coord_ne_of_ne_k (by omega)), flipNeg_val_self]
      · rw [ih (k - 1) _ k2 (by omega) (by omega)
          (fun m hm1 hm2 => h3 m hm1 (by omega)),
          flipNeg_val_ne D (i, j, k) (i, j, k2) (coord_ne_of_ne_k he)]

/-- The +j neighbor probed by sparseScan via entry 3 of the offset
table. -/
lemma coordOffset3 (i j k : ℤ) :
    ((i, j, k) : Coord) + COORD_OFFSETS.getD 3 (0, 0, 0) = (i, j + 1, k) := by
  show ((i, j, k) : Coord) + (((0 : ℤ), (1 : ℤ), (0 : ℤ)) : Coord) = (i, j + 1, k)
  simp [Prod.ext_iff]

/-- The +k neighbor probed by sparseScan via entry 5 of the offset
table. -/
lemma coordOffset5 (i j k : ℤ) :
    ((i, j, k) : Coord) + COORD_OFFSETS.getD 5 (0, 0, 0) = (i, j, k + 1) := by
  show ((i, j, k) : Coord) + (((0 : ℤ), (0 : ℤ), (1 : ℤ)) : Coord) = (i, j, k + 1)
  simp [Prod.ext_iff]

end TracerLemmas

/-- C7: in the per-row scan, at an active non-boundary voxel following a
non-outside voxel, when the +j or +k neighbor is an active outside voxel
the tracer declares the voxel outside and flips its sign, then walks back
from k - 1 down to last_k flipping the signs of interior (negative)
active-row values, leaving every column at or below an intervening
boundary voxel untouched, and finally records lastVoxelWasOut and sets
last_k to the current k. -/
theorem sparseScan_step_spec (D : DGrid) (mask : Coord → Bool) (i j k : ℤ)
    (st : ScanState) (hact : D.act (i, j, k) = true)
    (hmask : mask (i, j, k) = false) (hlast : st.lastVoxelWasOut = false)
    (hout : (D.act (i, j + 1, k) = true ∧ 0 < D.val (i, j + 1, k)) ∨
            (D.act (i, j, k + 1) = true ∧ 0 < D.val (i, j, k + 1))) :
    (scanStep D mask i j k st).2 = ⟨true, k⟩ ∧
    (scanStep D mask i j k st).1.act = D.act ∧
    (scanStep D mask i j k st).1.val (i, j, k) = -(D.val (i, j, k)) ∧
    (∀ k2 : ℤ, st.last_k ≤ k2 → k2 ≤ k - 1 →
       (∀ m : ℤ, k2 ≤ m → m ≤ k - 1 → mask (i, j, m) = false) →
       (scanStep D mask i j k st).1.val (i, j, k2) =
         if D.val (i, j, k2) < 0 then -(D.val (i, j, k2)) else D.val (i, j, k2)) ∧
    (∀ k2 m0 : ℤ, k2 ≤ m0 → m0 ≤ k - 1 → mask (i, j, m0) = true →
       (scanStep D mask i j k st).1.val (i, j, k2) = D.val (i, j, k2)) := by
  have hstep : scanStep D mask i j k st =
      (backtrace mask i j (k - st.last_k).toNat (k - 1) (flipVal D (i, j, k)),
       ⟨true, k⟩) := by
    simp only [scanStep, coordOffset3, coordOffset5]
    rw [if_pos hact, if_neg (by rw [hmask]; exact Bool.false_ne_true),
      if_neg (by rw [hlast]; exact Bool.false_ne_true), if_pos hout]
  refine ⟨by rw [hstep], ?_, ?_, ?_, ?_⟩
  · rw [hstep]
    exact backtrace_act mask i j _ _ _
  · rw [hstep]
    show (backtrace mask i j (k - st.last_k).toNat (k - 1)
      (flipVal D (i, j, k))).val (i, j, k) = -(D.val (i, j, k))
    rw [backtrace_untouched mask i j _ _ _ (i, j, k)
      (fun m hm1 hm2 => coord_ne_of_ne_k (by omega))]
    exact Function.update_same _ _ _
  · intro k2 h1 h2 h3
    rw [hstep]
    show (backtrace mask i j (k - st.last_k).toNat (k - 1)
      (flipVal D (i, j, k))).val (i, j, k2) = _
    rw [backtrace_flips mask i j _ _ _ k2 (by omega) h2 h3,
      flipVal_val_ne D (i, j, k) (i, j, k2) (coord_ne_of_ne_k (by omega))]
  · intro k2 m0 hb1 hb2 hb3
    rw [hstep]
    show (backtrace mask i j (k - st.last_k).toNat (k - 1)
      (flipVal D (i, j, k))).val (i, j, k2) = _
    rw [backtrace_boundary mask i j _ _ _ k2 m0 hb1 hb2 hb3,
      flipVal_val_ne D (i, j, k) (i, j, k2) (coord_ne_of_ne_k (by omega))]

/-- C7, witness: at (0, 0, 2) with an active outside +k neighbor and a
boundary at column 0, the step declares the voxel outside, resets the
state, and flips the sign at the voxel. -/
theorem sparseScan_step_spec_witness :
    (scanStep ⟨fun c => if c = ((0 : ℤ), (0 : ℤ), (3 : ℤ)) then 5 else -2, fun _ => true⟩
        (fun c => decide (c = ((0 : ℤ), (0 : ℤ), (0 : ℤ)))) 0 0 2 ⟨false, 0⟩).2 =
      ⟨true, 2⟩ ∧
    (scanStep ⟨fun c => if c = ((0 : ℤ), (0 : ℤ), (3 : ℤ)) then 5 else -2, fun _ => true⟩
        (fun c => decide (c = ((0 : ℤ), (0 : ℤ), (0 : ℤ)))) 0 0 2 ⟨false, 0⟩).1.val
        (0, 0, 2) =
      -((⟨fun c => if c = ((0 : ℤ), (0 : ℤ), (3 : ℤ)) then 5 else -2,
          fun _ => true⟩ : DGrid).val (0, 0, 2)) := by
  have h := sparseScan_step_spec
    ⟨fun c => if c = ((0 : ℤ), (0 : ℤ), (3 : ℤ)) then 5 else -2, fun _ => true⟩
    (fun c => decide (c = ((0 : ℤ), (0 : ℤ), (0 : ℤ)))) 0 0 2 ⟨false, 0⟩
    rfl (by decide) rfl
    (Or.inr ⟨rfl, by norm_num⟩)
  exact ⟨h.1, h.2.2.1⟩

section UnsignedLemmas

/-- In unsigned mode the sqrt-and-scale pass writes +voxelSize times a
square root at every active voxel, hence nonnegative values. -/
lemma sqrtAndScale_unsigned_nonneg (voxelSize : ℚ) (sqrtFn : ℚ → ℚ) (g : DGrid)
    (hvs : 0 ≤ voxelSize) (hs : ∀ x, 0 ≤ sqrtFn x) :
    ∀ c, (sqrtAndScaleOp voxelSize true sqrtFn g).act c = true →
      0 ≤ (sqrtAndScaleOp voxelSize true sqrtFn g).val c := by
  intro c hc
  have hc2 : g.act c = true := hc
  show 0 ≤ if g.act c = true then
      (if (true : Bool) = false ∧ g.val c < 0 then -voxelSize else voxelSize) *
        sqrtFn |g.val c|
    else g.val c
  rw [if_pos hc2, if_neg (fun h => Bool.noConfusion h.1)]
  exact mul_nonneg hvs (hs _)

/-- One expansion voxel step preserves nonnegativity of active values
when the interior band width is not positive and the recomputed distance
is a nonnegative square root scaled by a nonnegative voxel size. -/
lemma expandVoxel_nonneg (pts : ℕ → Vec3) (polys : ℕ → Vec4I)
    (triToPtnDistSqr : Vec3 → Vec3 → Vec3 → Vec3 → ℚ) (sqrtFn : ℚ → ℚ)
    (voxelSize exBandWidth inBandWidth : ℚ) (D : DGrid) (I : IGrid)
    (p : Coord) (primIn : ℤ)
    (hvs : 0 ≤ voxelSize) (hs : ∀ x, 0 ≤ sqrtFn x) (hin : inBandWidth ≤ 0)
    (hg : ∀ c, D.act c = true → 0 ≤ D.val c) :
    ∀ c, (expandVoxel pts polys triToPtnDistSqr sqrtFn voxelSize exBandWidth
        inBandWidth D I p primIn).1.act c = true →
      0 ≤ (expandVoxel pts polys triToPtnDistSqr sqrtFn voxelSize exBandWidth
        inBandWidth D I p primIn).1.val c := by
  intro c hc
  by_cases hp : D.act p = true
  · simp only [expandVoxel, hp, if_true, ite_true] at hc ⊢
    exact hg c hc
  · have hp2 : D.act p = false := by simpa using hp
    have hdist : 0 ≤ getDistToPrim pts polys triToPtnDistSqr sqrtFn voxelSize p
        (getDistLoop D I p offsets18 doubleMax primIn).2 :=
      mul_nonneg (hs _) hvs
    simp only [expandVoxel, hp2] at hc ⊢
    rw [if_neg Bool.false_ne_true] at hc ⊢
    split_ifs at hc ⊢ with h1 h2
    · by_cases hcp : c = p
      · subst hcp
        show 0 ≤ Function.update D.val c (getDistToPrim pts polys triToPtnDistSqr
          sqrtFn voxelSize c (getDistLoop D I c offsets18 doubleMax primIn).2) c
        rw [Function.update_same]
        exact hdist
      · have hc2 : Function.update D.act p true c = true := hc
        rw [Function.update_noteq hcp] at hc2
        show 0 ≤ Function.update D.val p (getDistToPrim pts polys triToPtnDistSqr
          sqrtFn voxelSize p (getDistLoop D I p offsets18 doubleMax primIn).2) c
        rw [Function.update_noteq hcp]
        exact hg c hc2
    · exfalso
      linarith [h2.2, hdist, hin]
    · exact hg c hc

/-- A whole expansion sweep preserves the nonnegativity invariant. -/
lemma expandList_nonneg (pts : ℕ → Vec3) (polys : ℕ → Vec4I)
    (triToPtnDistSqr : Vec3 → Vec3 → Vec3 → Vec3 → ℚ) (sqrtFn : ℚ → ℚ)
    (voxelSize exBandWidth inBandWidth : ℚ)
    (hvs : 0 ≤ voxelSize) (hs : ∀ x, 0 ≤ sqrtFn x) (hin : inBandWidth ≤ 0) :
    ∀ (ps : List Coord) (st : DGrid × IGrid × ℤ),
      (∀ c, st.1.act c = true → 0 ≤ st.1.val c) →
      ∀ c, (expandList pts polys triToPtnDistSqr sqrtFn voxelSize exBandWidth
          inBandWidth ps st).1.act c = true →
        0 ≤ (expandList pts polys triToPtnDistSqr sqrtFn voxelSize exBandWidth
          inBandWidth ps st).1.val c := by
  intro ps
  induction ps with
  | nil => intro st h c hc; exact h c hc
  | cons p ps ih =>
      intro st h c hc
      simp only [expandList, List.foldl_cons] at hc ⊢
      exact ih _ (expandVoxel_nonneg pts polys triToPtnDistSqr sqrtFn voxelSize
        exBandWidth inBandWidth st.1 st.2.1 p st.2.2 hvs hs hin h) c hc

/-- All dilation rounds preserve the nonnegativity invariant. -/
lemma expandSteps_nonneg (pts : ℕ → Vec3) (polys : ℕ → Vec4I)
    (triToPtnDistSqr : Vec3 → Vec3 → Vec3 → Vec3 → ℚ) (sqrtFn : ℚ → ℚ)
    (voxelSize exBandWidth inBandWidth : ℚ)
    (hvs : 0 ≤ voxelSize) (hs : ∀ x, 0 ≤ sqrtFn x) (hin : inBandWidth ≤ 0) :
    ∀ (steps : List (List Coord)) (st : DGrid × IGrid × ℤ),
      (∀ c, st.1.act c = true → 0 ≤ st.1.val c) →
      ∀ c, ((steps.foldl
          (fun st ps => expandList pts polys triToPtnDistSqr sqrtFn voxelSize
            exBandWidth inBandWidth ps st) st).1.act c = true) →
        0 ≤ (steps.foldl
          (fun st ps => expandList pts polys triToPtnDistSqr sqrtFn voxelSize
            exBandWidth inBandWidth ps st) st).1.val c := by
  intro steps
  induction steps with
  | nil => intro st h c hc; exact h c hc
  | cons ps steps ih =>
      intro st h c hc
      simp only [List.foldl_cons] at hc ⊢
      exact ih _ (expandList_nonneg pts polys triToPtnDistSqr sqrtFn voxelSize
        exBandWidth inBandWidth hvs hs hin ps st h) c hc

/-- The trim pass preserves nonnegativity of the surviving active
values. -/
lemma trimOp_nonneg (exBandWidth inBandWidth : ℚ) (g : DGrid)
    (hg : ∀ c, g.act c = true → 0 ≤ g.val c) :
    ∀ c, (trimOp exBandWidth inBandWidth g).act c = true →
      0 ≤ (trimOp exBandWidth inBandWidth g).val c := by
  intro c hc
  rw [trimOp_act] at hc
  rw [trimOp_val]
  by_cases hact : g.act c = true
  · rw [if_pos hact] at hc ⊢
    split_ifs at hc ⊢ with h1 h2
    exact hg c hact
  · rw [if_neg hact] at hc
    exact absurd hc hact

end UnsignedLemmas

/-- C8: after convertToUnsignedDistanceField - unsigned mode, which skips
the sign stages, treats the interior band width as zero and scales with
+voxelSize always - every active voxel of the returned distance grid
holds a nonnegative value, for any nonnegative voxel size and any square
root function with nonnegative values. -/
theorem convertToUnsignedDistanceField_nonneg (voxelSize exBandWidthIn : ℚ)
    (pts : ℕ → Vec3) (polys : ℕ → Vec4I)
    (triToPtnDistSqr : Vec3 → Vec3 → Vec3 → Vec3 → ℚ) (sqrtFn : ℚ → ℚ)
    (steps : List (List Coord)) (D0 : DGrid) (I0 : IGrid)
    (hvs : 0 ≤ voxelSize) (hs : ∀ x, 0 ≤ sqrtFn x) (c : Coord)
    (hc : (convertToUnsignedDistanceField voxelSize exBandWidthIn pts polys
        triToPtnDistSqr sqrtFn steps D0 I0).act c = true) :
    0 ≤ (convertToUnsignedDistanceField voxelSize exBandWidthIn pts polys
        triToPtnDistSqr sqrtFn steps D0 I0).val c := by
  simp only [convertToUnsignedDistanceField] at hc ⊢
  have inv1 := sqrtAndScale_unsigned_nonneg voxelSize sqrtFn D0 hvs hs
  have inv2 := expandSteps_nonneg pts polys triToPtnDistSqr sqrtFn voxelSize
    (voxelSize * max (1 + 1 / 10000000) exBandWidthIn) 0 hvs hs le_rfl steps
    (sqrtAndScaleOp voxelSize true sqrtFn D0, I0, 0) inv1
  split_ifs at hc ⊢ with h1 h2
  · exact trimOp_nonneg _ _ _ inv2 c hc
  · exact trimOp_nonneg _ _ _ inv1 c hc
  · exact inv2 c hc
  · exact inv1 c hc

/-- C8, witness: a degenerate zero voxel size keeps the seeded voxel
active through the unsigned pipeline with value zero. -/
theorem convertToUnsignedDistanceField_nonneg_witness :
    0 ≤ (convertToUnsignedDistanceField 0 3 (fun _ => (0, 0, 0))
        (fun _ => ⟨0, 0, 0, INVALID_IDX⟩) (fun _ _ _ _ => 0) (fun _ => 0) []
        ⟨fun _ => 4, fun c => decide (c = ((0 : ℤ), (0 : ℤ), (0 : ℤ)))⟩
        ⟨fun _ => 0, fun _ => false⟩).val (0, 0, 0) := by
  have hc : (convertToUnsignedDistanceField 0 3 (fun _ => (0, 0, 0))
      (fun _ => ⟨0, 0, 0, INVALID_IDX⟩) (fun _ _ _ _ => 0) (fun _ => 0) []
      ⟨fun _ => 4, fun c => decide (c = ((0 : ℤ), (0 : ℤ), (0 : ℤ)))⟩
      ⟨fun _ => 0, fun _ => false⟩).act (0, 0, 0) = true := by
    simp only [convertToUnsignedDistanceField]
    rw [if_neg (by norm_num), if_neg (by
      norm_num [narrowBandGate, Bool.or_eq_true, decide_eq_true_eq, zero_mul])]
    rfl
  exact convertToUnsignedDistanceField_nonneg 0 3 (fun _ => (0, 0, 0))
    (fun _ => ⟨0, 0, 0, INVALID_IDX⟩) (fun _ _ _ _ => 0) (fun _ => 0) []
    ⟨fun _ => 4, fun c => decide (c = ((0 : ℤ), (0 : ℤ), (0 : ℤ)))⟩
    ⟨fun _ => 0, fun _ => false⟩ le_rfl (fun _ => le_rfl) (0, 0, 0) hc

end MeshToVolume
